import Mathlib

/-!
Verification of the MVCC storage / replication core of the memgraph
repository.  Definitions are shallow embeddings of the C++ sources
(`src/storage/v2/replication/replication_client.cpp`,
`src/storage/v2/delta.hpp`) and, where the implementation file is not part
of the excerpt, models built from the specification (marked
`Modelled from the spec:` in the doc comment).
-/

/-! ## Durability file metadata (durability::WalDurabilityInfo,
durability::SnapshotDurabilityInfo) -/

/-- Metadata of one finalized WAL file as returned by
`durability::GetWalFiles` (uuid omitted; the path identifies the file).
Timestamps and sequence numbers are uint64 values, represented as `Nat`. -/
structure WalDurabilityInfo where
  seq_num : Nat
  from_timestamp : Nat
  to_timestamp : Nat
  path : String
deriving Repr, DecidableEq, Inhabited

/-- Metadata of one snapshot file as returned by
`durability::GetSnapshotFiles`. -/
structure SnapshotDurabilityInfo where
  path : String
  start_timestamp : Nat
deriving Repr, DecidableEq

/-- `Storage::ReplicationClient::RecoveryStep`
(the `std::variant<RecoverySnapshot, RecoveryWals, RecoveryCurrentWal,
RecoveryFinalSnapshot>` of replication_client.hpp). -/
inductive RecoveryStep where
  | RecoverySnapshot (path : String)
  | RecoveryWals (paths : List String)
  | RecoveryCurrentWal (current_wal_seq_num : Nat)
  | RecoveryFinalSnapshot (snapshot_timestamp : Nat)
deriving Repr, DecidableEq

/-- The reverse scan over the finalized WAL files inside
`Storage::ReplicationClient::GetRecoverySteps`
(replication_client.cpp:454-492).  `i` is the forward index of the WAL
file the scan currently examines (the scan starts at the newest file,
index `ws.length - 1`, and moves toward the oldest), and
`previous_seq_num` is the sequence number of the previously examined
(newer) file.  Returns the forward index of the first file of the WAL
chain (after the possible step back toward the newer file when the
replica already holds every commit of the found file), or `none` when the
scan hits a sequence-number gap or exhausts the list, in which case the
snapshot branch must be used.  The C++ gap test
`previous_seq_num - rwal_it->seq_num > 1` is on uint64, so it also fires
(by wrap-around) when `previous_seq_num < seq_num`. -/
def findWalChainStart (replica_commit : Nat) (ws : List WalDurabilityInfo) :
    Nat → Nat → Option Nat
  | i, previous_seq_num =>
    match ws[i]? with
    | none => none
    | some w =>
      if w.seq_num + 1 < previous_seq_num ∨ previous_seq_num < w.seq_num then
        none
      else if replica_commit ≥ w.from_timestamp ∨ w.seq_num = 0 then
        some (if replica_commit ≥ w.to_timestamp then i + 1 else i)
      else
        match i with
        | 0 => none
        | i' + 1 => findWalChainStart replica_commit ws i' w.seq_num

/-- The snapshot branch of `GetRecoverySteps`
(replication_client.cpp:501-525): choose the WAL files that are sent
after the latest snapshot.  The forward loop finds the first WAL whose
`to_timestamp` exceeds the snapshot's `start_timestamp`; when that WAL
begins after the snapshot start the loop steps back one file (the
`CHECK(wal_it != wal_files->begin())` failure is modelled as `none`);
when no WAL qualifies, only the newest WAL is sent. -/
def walsAfterSnapshot (snapshot_start : Nat) (ws : List WalDurabilityInfo) :
    Option (List WalDurabilityInfo) :=
  match ws.findIdx? (fun w => snapshot_start < w.to_timestamp) with
  | none =>
    match ws.getLast? with
    | none => none
    | some w => some [w]
  | some j =>
    match ws[j]? with
    | none => none
    | some w =>
      if snapshot_start < w.from_timestamp then
        match j with
        | 0 => none
        | j' + 1 => some (ws.drop j')
      else some (ws.drop j)

/-- `Storage::ReplicationClient::GetRecoverySteps`
(replication_client.cpp:392-535).  The filesystem and storage reads are
explicit parameters: `current_wal_seq_num` is the sequence number of the
currently open WAL (when one exists), `wal_files` the list of finalized
WAL files returned by `durability::GetWalFiles` (sorted ascending), and
`latest_snapshot` the newest snapshot.  A failing `CHECK` assertion is
modelled as `none`. -/
def GetRecoverySteps (replica_commit : Nat) (current_wal_seq_num : Option Nat)
    (wal_files : List WalDurabilityInfo)
    (latest_snapshot : Option SnapshotDurabilityInfo) :
    Option (List RecoveryStep) :=
  let currentOrFinal : Option (List RecoveryStep) :=
    match current_wal_seq_num with
    | some s => some [.RecoveryCurrentWal s]
    | none =>
      match latest_snapshot with
      | some snap => some [.RecoveryFinalSnapshot snap.start_timestamp]
      | none => none
  let currentSteps : List RecoveryStep :=
    match current_wal_seq_num with
    | some s => [.RecoveryCurrentWal s]
    | none => []
  match wal_files.getLast? with
  | none => currentOrFinal
  | some newest =>
    if newest.to_timestamp ≤ replica_commit then currentOrFinal
    else
      match findWalChainStart replica_commit wal_files
          (wal_files.length - 1) newest.seq_num with
      | some k =>
        some (.RecoveryWals ((wal_files.drop k).map (·.path)) :: currentSteps)
      | none =>
        match latest_snapshot with
        | none => none
        | some snap =>
          match walsAfterSnapshot snap.start_timestamp wal_files with
          | none => none
          | some chain =>
            some (.RecoverySnapshot snap.path ::
                  .RecoveryWals (chain.map (·.path)) :: currentSteps)

/-! ## Replication client state machine (replication_client.cpp) -/

/-- `replication::ReplicaState` (storage/v2/replication/enums.hpp). -/
inductive ReplicaState where
  | READY
  | REPLICATING
  | RECOVERY
  | INVALID
deriving Repr, DecidableEq

/-- `replication::ReplicationMode`. -/
inductive ReplicationMode where
  | SYNC
  | ASYNC
deriving Repr, DecidableEq

/-- The fields of `Storage::ReplicationClient` that the per-transaction
replication functions read and write: the replica state machine, the
replication mode, the optional SYNC timeout, and whether a replica
stream is currently open. -/
structure ClientState where
  replica_state : ReplicaState
  mode : ReplicationMode
  timeout : Option Nat
  has_replica_stream : Bool
deriving Repr, DecidableEq

/-- The observable outcome of one `StartTransactionReplication` call:
the client fields afterwards, and which side effects the call performed. -/
structure StartTxResult where
  state : ClientState
  opened_stream : Bool
  fired_reconnect : Bool
  enqueued_recovery : Bool
deriving Repr, DecidableEq

/-- `Storage::ReplicationClient::StartTransactionReplication`
(replication_client.cpp:144-179).  `rpc_open_fails` tells whether
constructing the `ReplicaStream` throws `rpc::RpcFailedException`. -/
def StartTransactionReplication (c : ClientState) (rpc_open_fails : Bool) :
    StartTxResult :=
  match c.replica_state with
  | .RECOVERY => ⟨c, false, false, false⟩
  | .REPLICATING => ⟨{ c with replica_state := .RECOVERY }, false, false, false⟩
  | .INVALID => ⟨c, false, true, false⟩
  | .READY =>
    if rpc_open_fails then
      ⟨{ c with replica_state := .INVALID }, false, true, false⟩
    else
      ⟨{ c with replica_state := .REPLICATING, has_replica_stream := true },
       true, false, false⟩

/-- `Storage::ReplicationClient::FinalizeTransactionReplication`
(replication_client.cpp:202-254).  `state_at_wake` is the value of
`replica_state_` observed by the main thread after the condition
variable wakes it in the SYNC-with-timeout branch; it is still
`REPLICATING` exactly when the timeout task finished before the
finalize task updated the state. -/
def FinalizeTransactionReplication (c : ClientState)
    (state_at_wake : ReplicaState) : ClientState :=
  if c.replica_state ≠ .REPLICATING then c
  else
    match c.mode with
    | .ASYNC => c
    | .SYNC =>
      match c.timeout with
      | some _ =>
        let c1 := { c with replica_state := state_at_wake }
        if state_at_wake = .REPLICATING then
          { c1 with mode := .ASYNC, timeout := none }
        else c1
      | none => c

/-- One invocation of a per-transaction replication entry point of
`Storage::ReplicationClient`, with its environment inputs. -/
inductive ClientEvent where
  | startTx (rpc_open_fails : Bool)
  | finalizeTx (state_at_wake : ReplicaState)
deriving Repr, DecidableEq

/-- Apply one replication client event to the client fields. -/
def applyClientEvent (c : ClientState) : ClientEvent → ClientState
  | .startTx f => (StartTransactionReplication c f).state
  | .finalizeTx s => FinalizeTransactionReplication c s

/-- Apply a sequence of replication client events. -/
def applyClientEvents (c : ClientState) : List ClientEvent → ClientState
  | [] => c
  | e :: es => applyClientEvents (applyClientEvent c e) es

/-! ## InitializeClient and the branching-point check -/

/-- Modelled from the spec: `kTimestampInitialId`, the commit timestamp a
fresh instance reports before any transaction committed (defined in
storage/v2/transaction.hpp, which is not part of the excerpt). -/
def kTimestampInitialId : Nat := 0

/-- The reply of the `HeartbeatRpc` sent by `InitializeClient`. -/
structure HeartbeatRes where
  current_commit_timestamp : Nat
  epoch_id : String
deriving Repr, DecidableEq

/-- The storage fields `InitializeClient` reads: the current epoch id,
the epoch history (oldest first; each entry pairs an epoch id with the
last commit timestamp of that epoch), and the last commit timestamp. -/
structure StorageEpochState where
  epoch_id : String
  epoch_history : List (String × Nat)
  last_commit_timestamp : Nat
deriving Repr, DecidableEq

/-- The observable outcome of `InitializeClient`: the replica state it
stores (`none` when it returns early without storing one), whether it
scheduled `RecoverReplica` on the thread pool, and the branching point
it detected, if any. -/
structure InitializeResult where
  replica_state : Option ReplicaState
  recovery_scheduled : Bool
  branching_point : Option Nat
deriving Repr, DecidableEq

/-- `Storage::ReplicationClient::InitializeClient`
(replication_client.cpp:41-94).  The branching-point check runs only
when the replica's epoch differs from the local one and the replica's
commit timestamp is not `kTimestampInitialId`; the epoch history is
searched newest-first (`crbegin`/`crend`). -/
def InitializeClient (st : StorageEpochState) (response : HeartbeatRes) :
    InitializeResult :=
  let branching_point : Option Nat :=
    if response.epoch_id ≠ st.epoch_id ∧
        response.current_commit_timestamp ≠ kTimestampInitialId then
      match st.epoch_history.reverse.find?
          (fun epoch_info => epoch_info.1 = response.epoch_id) with
      | none => some 0
      | some epoch_info =>
        if epoch_info.2 ≠ response.current_commit_timestamp then
          some epoch_info.2
        else none
    else none
  match branching_point with
  | some bp => ⟨none, false, some bp⟩
  | none =>
    if response.current_commit_timestamp = st.last_commit_timestamp then
      ⟨some .READY, false, none⟩
    else
      ⟨some .RECOVERY, true, none⟩

/-- A single replication client event never turns the mode back to SYNC:
only `FinalizeTransactionReplication` writes `mode_`, and the only write
is the SYNC-to-ASYNC demotion. -/
theorem applyClientEvent_mode_async (c : ClientState) (e : ClientEvent)
    (h : c.mode = .ASYNC) : (applyClientEvent c e).mode = .ASYNC := by
  cases e with
  | startTx f =>
    cases hs : c.replica_state <;>
      simp [applyClientEvent, StartTransactionReplication, hs] <;>
      cases f <;> simp [h]
  | finalizeTx s =>
    by_cases hrep : c.replica_state = .REPLICATING <;>
      simp [applyClientEvent, FinalizeTransactionReplication, hrep, h]

/-- Over any sequence of replication client events, ASYNC mode persists. -/
theorem applyClientEvents_mode_async (evs : List ClientEvent) :
    ∀ c : ClientState, c.mode = .ASYNC →
      (applyClientEvents c evs).mode = .ASYNC := by
  induction evs with
  | nil => intro c h; exact h
  | cons e es ih =>
    intro c h
    exact ih _ (applyClientEvent_mode_async c e h)

/-- C5: when a SYNC replica with a configured timeout is still in state
REPLICATING at the moment the main thread is woken in
`FinalizeTransactionReplication` (i.e. the timeout task won the race),
the client's mode is set to ASYNC and the timeout is cleared, and no
later replication client event ever restores SYNC mode. -/
theorem sync_timeout_demotes_to_async_permanently (c : ClientState) (t : Nat)
    (hm : c.mode = .SYNC) (ht : c.timeout = some t)
    (hs : c.replica_state = .REPLICATING) :
    (FinalizeTransactionReplication c .REPLICATING).mode = .ASYNC ∧
    (FinalizeTransactionReplication c .REPLICATING).timeout = none ∧
    ∀ evs : List ClientEvent,
      (applyClientEvents (FinalizeTransactionReplication c .REPLICATING)
        evs).mode = .ASYNC := by
  have hfin : FinalizeTransactionReplication c .REPLICATING =
      { c with replica_state := .REPLICATING, mode := .ASYNC,
               timeout := none } := by
    simp [FinalizeTransactionReplication, hs, hm, ht]
  refine ⟨by simp [hfin], by simp [hfin], fun evs => ?_⟩
  exact applyClientEvents_mode_async evs _ (by simp [hfin])

/-- Witness for C5 at a concrete SYNC client with a 200 s timeout. -/
theorem sync_timeout_demotes_to_async_permanently_witness :
    (FinalizeTransactionReplication ⟨.REPLICATING, .SYNC, some 200, true⟩
        .REPLICATING).mode = .ASYNC ∧
    (FinalizeTransactionReplication ⟨.REPLICATING, .SYNC, some 200, true⟩
        .REPLICATING).timeout = none ∧
    (applyClientEvents
      (FinalizeTransactionReplication ⟨.REPLICATING, .SYNC, some 200, true⟩
        .REPLICATING)
      [.startTx false, .finalizeTx .READY]).mode = .ASYNC := by
  obtain ⟨h1, h2, h3⟩ := sync_timeout_demotes_to_async_permanently
    ⟨.REPLICATING, .SYNC, some 200, true⟩ 200 rfl rfl rfl
  exact ⟨h1, h2, h3 _⟩

/-- C4 counterexample: a call in state READY whose stream construction
throws `rpc::RpcFailedException` does not transition to REPLICATING and
does not open a stream; it transitions to INVALID and fires the
reconnect handler, a transition the claim rules out. -/
theorem startTransactionReplication_ready_failure :
    (StartTransactionReplication ⟨.READY, .SYNC, none, false⟩
        true).state.replica_state = .INVALID ∧
    (StartTransactionReplication ⟨.READY, .SYNC, none, false⟩
        true).state.replica_state ≠ .REPLICATING ∧
    (StartTransactionReplication ⟨.READY, .SYNC, none, false⟩
        true).opened_stream = false ∧
    (StartTransactionReplication ⟨.READY, .SYNC, none, false⟩
        true).fired_reconnect = true := by
  decide

/-- C4 (amended): the full transition table of
`StartTransactionReplication`.  READY opens a stream and moves to
REPLICATING only when the stream construction succeeds; on an RPC
failure it moves to INVALID and fires reconnect.  REPLICATING moves to
RECOVERY without enqueueing the recovery task, RECOVERY changes
nothing, INVALID fires reconnect, and no call ever enqueues recovery or
touches the mode or timeout. -/
theorem startTransactionReplication_cases (c : ClientState) (f : Bool) :
    (c.replica_state = .READY → f = false →
      (StartTransactionReplication c f).state.replica_state = .REPLICATING ∧
      (StartTransactionReplication c f).opened_stream = true ∧
      (StartTransactionReplication c f).fired_reconnect = false) ∧
    (c.replica_state = .READY → f = true →
      (StartTransactionReplication c f).state.replica_state = .INVALID ∧
      (StartTransactionReplication c f).opened_stream = false ∧
      (StartTransactionReplication c f).fired_reconnect = true) ∧
    (c.replica_state = .REPLICATING →
      (StartTransactionReplication c f).state.replica_state = .RECOVERY ∧
      (StartTransactionReplication c f).opened_stream = false ∧
      (StartTransactionReplication c f).fired_reconnect = false) ∧
    (c.replica_state = .RECOVERY →
      (StartTransactionReplication c f).state = c ∧
      (StartTransactionReplication c f).opened_stream = false ∧
      (StartTransactionReplication c f).fired_reconnect = false) ∧
    (c.replica_state = .INVALID →
      (StartTransactionReplication c f).state = c ∧
      (StartTransactionReplication c f).fired_reconnect = true) ∧
    (StartTransactionReplication c f).enqueued_recovery = false ∧
    (StartTransactionReplication c f).state.mode = c.mode ∧
    (StartTransactionReplication c f).state.timeout = c.timeout := by
  cases hs : c.replica_state <;> cases f <;>
    simp [StartTransactionReplication, hs]

/-- Witness for C4 (amended) at a READY client whose stream opens. -/
theorem startTransactionReplication_cases_witness :
    (StartTransactionReplication ⟨.READY, .SYNC, none, false⟩
        false).state.replica_state = .REPLICATING ∧
    (StartTransactionReplication ⟨.READY, .SYNC, none, false⟩
        false).opened_stream = true := by
  obtain ⟨h1, -⟩ :=
    startTransactionReplication_cases ⟨.READY, .SYNC, none, false⟩ false
  obtain ⟨ha, hb, -⟩ := h1 rfl rfl
  exact ⟨ha, hb⟩

/-- C6 counterexample: a replica whose epoch id differs from the local
one and is absent from the local epoch history, but whose commit
timestamp is `kTimestampInitialId` (a fresh replica), is not declared a
branching point: `InitializeClient` enters RECOVERY and schedules
`RecoverReplica`, contradicting the claim. -/
theorem initializeClient_fresh_replica :
    (InitializeClient ⟨"B", [], 5⟩ ⟨0, "A"⟩).replica_state =
      some .RECOVERY ∧
    (InitializeClient ⟨"B", [], 5⟩ ⟨0, "A"⟩).recovery_scheduled = true ∧
    (InitializeClient ⟨"B", [], 5⟩ ⟨0, "A"⟩).branching_point = none := by
  decide

/-- C6 (amended): on the initial heartbeat, whenever the replica's epoch
id differs from the local one, the replica's commit timestamp is not
`kTimestampInitialId`, and the epoch is either absent from the local
epoch history or most recently recorded there with a different commit
timestamp, `InitializeClient` declares a branching point and returns
without storing READY or RECOVERY and without scheduling
`RecoverReplica`. -/
theorem initializeClient_branching_point (st : StorageEpochState)
    (r : HeartbeatRes)
    (hne : r.epoch_id ≠ st.epoch_id)
    (hts : r.current_commit_timestamp ≠ kTimestampInitialId)
    (hdiv : (∀ e ∈ st.epoch_history, e.1 ≠ r.epoch_id) ∨
      (∃ e, st.epoch_history.reverse.find?
          (fun epoch_info => epoch_info.1 = r.epoch_id) = some e ∧
        e.2 ≠ r.current_commit_timestamp)) :
    (InitializeClient st r).replica_state = none ∧
    (InitializeClient st r).recovery_scheduled = false ∧
    (InitializeClient st r).branching_point.isSome = true := by
  unfold InitializeClient
  rw [if_pos ⟨hne, hts⟩]
  rcases hdiv with habs | ⟨e, hfind, hne2⟩
  · have : st.epoch_history.reverse.find?
        (fun epoch_info => epoch_info.1 = r.epoch_id) = none := by
      rw [List.find?_eq_none]
      intro x hx
      simp only [decide_eq_true_eq]
      exact habs x (List.mem_reverse.mp hx)
    rw [this]
    simp
  · rw [hfind]
    simp [hne2]

/-- Witness for C6 (amended): epoch "A" is recorded with timestamp 3 but
the replica reports 7. -/
theorem initializeClient_branching_point_witness :
    (InitializeClient ⟨"B", [("A", 3)], 9⟩ ⟨7, "A"⟩).replica_state = none ∧
    (InitializeClient ⟨"B", [("A", 3)], 9⟩ ⟨7, "A"⟩).recovery_scheduled =
      false ∧
    (InitializeClient ⟨"B", [("A", 3)], 9⟩ ⟨7, "A"⟩).branching_point.isSome =
      true := by
  exact initializeClient_branching_point ⟨"B", [("A", 3)], 9⟩ ⟨7, "A"⟩
    (by decide) (by decide) (Or.inr ⟨("A", 3), by decide, by decide⟩)

/-! ## PreviousPtr: the tagged back-pointer (delta.hpp:24-87) -/

/-- PreviousPtr tag constant `kDelta = 0b01` (delta.hpp:26). -/
def kDelta : Nat := 1

/-- PreviousPtr tag constant `kVertex = 0b10` (delta.hpp:27). -/
def kVertex : Nat := 2

/-- PreviousPtr tag constant `kEdge = 0b11` (delta.hpp:28). -/
def kEdge : Nat := 3

/-- PreviousPtr tag mask `kMask = 0b11` (delta.hpp:30). -/
def kMask : Nat := 3

/-- The 64-bit complement `~kMask` used by the getters
(`storage_ & ~kMask` on `uintptr_t`). -/
def kMaskComplement : Nat := (2 ^ 64 - 1) ^^^ kMask

/-- `PreviousPtr::Type` (delta.hpp:33-37). -/
inductive PreviousPtrType where
  | DELTA
  | VERTEX
  | EDGE
deriving Repr, DecidableEq

/-- `PreviousPtr::Set(Delta *)` (delta.hpp:39-43): pointers are `Nat`
values of `uintptr_t`; the `CHECK((value & kMask) == 0)` failure is
modelled as `none`. -/
def PreviousPtrSetDelta (value : Nat) : Option Nat :=
  if value &&& kMask = 0 then some (value ||| kDelta) else none

/-- `PreviousPtr::Set(Vertex *)` (delta.hpp:45-49). -/
def PreviousPtrSetVertex (value : Nat) : Option Nat :=
  if value &&& kMask = 0 then some (value ||| kVertex) else none

/-- `PreviousPtr::Set(Edge *)` (delta.hpp:51-55). -/
def PreviousPtrSetEdge (value : Nat) : Option Nat :=
  if value &&& kMask = 0 then some (value ||| kEdge) else none

/-- `PreviousPtr::GetType` (delta.hpp:57-68); the `LOG(FATAL)` on an
untagged pointer is modelled as `none`. -/
def PreviousPtrGetType (storage : Nat) : Option PreviousPtrType :=
  let t := storage &&& kMask
  if t = kDelta then some .DELTA
  else if t = kVertex then some .VERTEX
  else if t = kEdge then some .EDGE
  else none

/-- `PreviousPtr::GetDelta` (delta.hpp:70-73): the tag is checked and
masked off before the pointer is produced. -/
def PreviousPtrGetDelta (storage : Nat) : Option Nat :=
  if storage &&& kMask = kDelta then some (storage &&& kMaskComplement)
  else none

/-- `PreviousPtr::GetVertex` (delta.hpp:75-78). -/
def PreviousPtrGetVertex (storage : Nat) : Option Nat :=
  if storage &&& kMask = kVertex then some (storage &&& kMaskComplement)
  else none

/-- `PreviousPtr::GetEdge` (delta.hpp:80-83). -/
def PreviousPtrGetEdge (storage : Nat) : Option Nat :=
  if storage &&& kMask = kEdge then some (storage &&& kMaskComplement)
  else none

/-- An 8-byte-aligned value with a tag below 8 ORed in is just their
sum: the tag occupies the zero low bits. -/
theorem aligned_or_eq_add (p tag : Nat) (hal : p % 8 = 0) (ht : tag < 8) :
    p ||| tag = p + tag := by
  obtain ⟨k, rfl⟩ : ∃ k, p = 2 ^ 3 * k := ⟨p / 8, by omega⟩
  exact (Nat.mul_add_lt_is_or (by omega) k).symm

/-- The low two bits of an 8-byte-aligned value are zero. -/
theorem aligned_and_kMask (p : Nat) (hal : p % 8 = 0) : p &&& kMask = 0 := by
  have h3 : kMask = 2 ^ 2 - 1 := rfl
  rw [h3, Nat.and_pow_two_sub_one_eq_mod]
  omega

/-- Extracting the tag of a tagged aligned pointer returns the tag. -/
theorem tagged_and_kMask (p tag : Nat) (hal : p % 8 = 0) (ht : tag < 4) :
    (p + tag) &&& kMask = tag := by
  have h3 : kMask = 2 ^ 2 - 1 := rfl
  rw [h3, Nat.and_pow_two_sub_one_eq_mod]
  omega

/-- Masking the tag off a tagged aligned pointer recovers the pointer. -/
theorem tagged_and_kMaskComplement (p tag : Nat) (hal : p % 8 = 0)
    (hlt : p < 2 ^ 64) (ht : tag < 4) :
    (p + tag) &&& kMaskComplement = p := by
  have hadd : p + tag = p ||| tag := (aligned_or_eq_add p tag hal (by omega)).symm
  rw [hadd]
  apply Nat.eq_of_testBit_eq
  intro i
  have hcompl : kMaskComplement = (2 ^ 64 - 1) ^^^ (2 ^ 2 - 1) := rfl
  rw [hcompl]
  simp only [Nat.testBit_and, Nat.testBit_or, Nat.testBit_xor,
    Nat.testBit_two_pow_sub_one]
  obtain ⟨k, rfl⟩ : ∃ k, p = 8 * k := ⟨p / 8, by omega⟩
  rcases Nat.lt_or_ge i 2 with hi2 | hi2
  · have hp : (8 * k).testBit i = false := by
      interval_cases i <;>
        simp [Nat.testBit_to_div_mod] <;> omega
    simp [hp, hi2, show i < 64 by omega]
  · have htag : tag.testBit i = false :=
      Nat.testBit_lt_two_pow (lt_of_lt_of_le ht (by
        calc (4 : Nat) = 2 ^ 2 := rfl
        _ ≤ 2 ^ i := Nat.pow_le_pow_right (by omega) hi2))
    rcases Nat.lt_or_ge i 64 with hi64 | hi64
    · simp [htag, show ¬ i < 2 by omega, hi64]
    · have hp : (8 * k).testBit i = false :=
        Nat.testBit_lt_two_pow (lt_of_lt_of_le hlt
          (Nat.pow_le_pow_right (by omega) hi64))
      simp [htag, hp, show ¬ i < 2 by omega, show ¬ i < 64 by omega]

/-- C7: for every 8-byte-aligned pointer value below 2^64, each Set
overload passes its CHECK and stores the pointer with the matching tag
in the two low bits, GetType reports the matching type, and the
matching getter masks the tag off and returns exactly the pointer. -/
theorem previousPtr_tag_roundtrip (p : Nat) (hal : p % 8 = 0)
    (hlt : p < 2 ^ 64) :
    (PreviousPtrSetDelta p = some (p + kDelta) ∧
      PreviousPtrGetType (p + kDelta) = some PreviousPtrType.DELTA ∧
      PreviousPtrGetDelta (p + kDelta) = some p) ∧
    (PreviousPtrSetVertex p = some (p + kVertex) ∧
      PreviousPtrGetType (p + kVertex) = some PreviousPtrType.VERTEX ∧
      PreviousPtrGetVertex (p + kVertex) = some p) ∧
    (PreviousPtrSetEdge p = some (p + kEdge) ∧
      PreviousPtrGetType (p + kEdge) = some PreviousPtrType.EDGE ∧
      PreviousPtrGetEdge (p + kEdge) = some p) := by
  have hz := aligned_and_kMask p hal
  have ht1 : (p + kDelta) &&& kMask = kDelta :=
    tagged_and_kMask p 1 hal (by omega)
  have ht2 : (p + kVertex) &&& kMask = kVertex :=
    tagged_and_kMask p 2 hal (by omega)
  have ht3 : (p + kEdge) &&& kMask = kEdge :=
    tagged_and_kMask p 3 hal (by omega)
  have hm1 : (p + kDelta) &&& kMaskComplement = p :=
    tagged_and_kMaskComplement p 1 hal hlt (by omega)
  have hm2 : (p + kVertex) &&& kMaskComplement = p :=
    tagged_and_kMaskComplement p 2 hal hlt (by omega)
  have hm3 : (p + kEdge) &&& kMaskComplement = p :=
    tagged_and_kMaskComplement p 3 hal hlt (by omega)
  refine ⟨⟨?_, ?_, ?_⟩, ⟨?_, ?_, ?_⟩, ⟨?_, ?_, ?_⟩⟩
  · simp [PreviousPtrSetDelta, hz,
      aligned_or_eq_add p kDelta hal (by decide)]
  · simp [PreviousPtrGetType, ht1, kDelta, kVertex, kEdge, kMask] at ht1 ⊢
  · simp [PreviousPtrGetDelta, ht1, hm1]
  · simp [PreviousPtrSetVertex, hz,
      aligned_or_eq_add p kVertex hal (by decide)]
  · simp [PreviousPtrGetType, ht2, kDelta, kVertex, kEdge, kMask] at ht2 ⊢
  · simp [PreviousPtrGetVertex, ht2, hm2]
  · simp [PreviousPtrSetEdge, hz,
      aligned_or_eq_add p kEdge hal (by decide)]
  · simp [PreviousPtrGetType, ht3, kDelta, kVertex, kEdge, kMask] at ht3 ⊢
  · simp [PreviousPtrGetEdge, ht3, hm3]

/-- Witness for C7 at the concrete aligned pointer value 8. -/
theorem previousPtr_tag_roundtrip_witness :
    (PreviousPtrSetDelta 8 = some (8 + kDelta) ∧
      PreviousPtrGetType (8 + kDelta) = some PreviousPtrType.DELTA ∧
      PreviousPtrGetDelta (8 + kDelta) = some 8) ∧
    (PreviousPtrSetVertex 8 = some (8 + kVertex) ∧
      PreviousPtrGetType (8 + kVertex) = some PreviousPtrType.VERTEX ∧
      PreviousPtrGetVertex (8 + kVertex) = some 8) ∧
    (PreviousPtrSetEdge 8 = some (8 + kEdge) ∧
      PreviousPtrGetType (8 + kEdge) = some PreviousPtrType.EDGE ∧
      PreviousPtrGetEdge (8 + kEdge) = some 8) :=
  previousPtr_tag_roundtrip 8 (by norm_num) (by norm_num)

/-! ## Delta and its move constructor (delta.hpp:89-253) -/

/-- `Delta::Action` (delta.hpp:90-103). -/
inductive DeltaAction where
  | DELETE_OBJECT
  | RECREATE_OBJECT
  | SET_PROPERTY
  | ADD_LABEL
  | REMOVE_LABEL
  | ADD_IN_EDGE
  | ADD_OUT_EDGE
  | REMOVE_IN_EDGE
  | REMOVE_OUT_EDGE
deriving Repr, DecidableEq

/-- The storage of one `Delta` object: the discriminant, the union
payload fields (opaque data, represented by `Nat` identities), and the
lifetime bookkeeping of the `PropertyValue` member of the `property`
union arm: `property_value_alive` records whether a `PropertyValue` is
currently constructed in the union, and `double_destroy` records
whether `~PropertyValue` was ever run on a dead value (undefined
behaviour in the C++). -/
structure DeltaObject where
  action : DeltaAction
  timestamp : Nat
  command_id : Nat
  label : Nat
  property_key : Nat
  property_value : Nat
  vertex_edge : Nat
  property_value_alive : Bool
  double_destroy : Bool
deriving Repr, DecidableEq

/-- `Delta::DestroyValue` (delta.hpp:237-252): only the SET_PROPERTY arm
runs the `PropertyValue` destructor; every other action is a no-op. -/
def DeltaDestroyValue (d : DeltaObject) : DeltaObject :=
  match d.action with
  | .SET_PROPERTY =>
    { d with property_value_alive := false,
             double_destroy := d.double_destroy || !d.property_value_alive }
  | _ => d

/-- The `Delta` move constructor (delta.hpp:178-207): the new delta
copies the header and the payload of the union arm selected by the
source's action (for SET_PROPERTY it move-constructs the
`PropertyValue` from the source, which leaves the source value alive);
afterwards the source's value is destroyed via `DestroyValue` and the
source's action is reset to DELETE_OBJECT.  Returns the pair (newly
constructed delta, moved-from delta). -/
def DeltaMoveConstruct (other : DeltaObject) : DeltaObject × DeltaObject :=
  let d : DeltaObject :=
    { action := other.action
      timestamp := other.timestamp
      command_id := other.command_id
      label :=
        match other.action with
        | .ADD_LABEL | .REMOVE_LABEL => other.label
        | _ => 0
      property_key :=
        match other.action with
        | .SET_PROPERTY => other.property_key
        | _ => 0
      property_value :=
        match other.action with
        | .SET_PROPERTY => other.property_value
        | _ => 0
      vertex_edge :=
        match other.action with
        | .ADD_IN_EDGE | .ADD_OUT_EDGE | .REMOVE_IN_EDGE | .REMOVE_OUT_EDGE =>
          other.vertex_edge
        | _ => 0
      property_value_alive := other.action = .SET_PROPERTY
      double_destroy := false }
  let movedFrom := { DeltaDestroyValue other with action := .DELETE_OBJECT }
  (d, movedFrom)

/-- The `Delta` destructor (delta.hpp:213): it only runs
`DestroyValue`. -/
def DeltaDestructor (d : DeltaObject) : DeltaObject := DeltaDestroyValue d

/-- C10: after the move constructor runs on a live delta, the moved-from
delta's action is DELETE_OBJECT; when the source was SET_PROPERTY its
`PropertyValue` has already been destroyed before the action reset; and
running the destructor on the moved-from delta afterwards never
destroys the property value a second time. -/
theorem delta_move_resets_action_no_double_destroy (d : DeltaObject)
    (halive : d.property_value_alive = true)
    (hclean : d.double_destroy = false) :
    ((DeltaMoveConstruct d).2).action = .DELETE_OBJECT ∧
    (d.action = .SET_PROPERTY →
      ((DeltaMoveConstruct d).2).property_value_alive = false) ∧
    ((DeltaMoveConstruct d).2).double_destroy = false ∧
    (DeltaDestructor (DeltaMoveConstruct d).2).double_destroy = false := by
  cases ha : d.action <;>
    simp [DeltaMoveConstruct, DeltaDestructor, DeltaDestroyValue, ha,
      halive, hclean]

/-- Witness for C10 at a concrete SET_PROPERTY delta. -/
theorem delta_move_resets_action_no_double_destroy_witness :
    ((DeltaMoveConstruct
        ⟨.SET_PROPERTY, 7, 1, 0, 5, 42, 0, true, false⟩).2).action =
      .DELETE_OBJECT ∧
    ((.SET_PROPERTY : DeltaAction) = .SET_PROPERTY →
      ((DeltaMoveConstruct
        ⟨.SET_PROPERTY, 7, 1, 0, 5, 42, 0, true, false⟩).2).property_value_alive
        = false) ∧
    ((DeltaMoveConstruct
        ⟨.SET_PROPERTY, 7, 1, 0, 5, 42, 0, true, false⟩).2).double_destroy =
      false ∧
    (DeltaDestructor (DeltaMoveConstruct
        ⟨.SET_PROPERTY, 7, 1, 0, 5, 42, 0, true, false⟩).2).double_destroy =
      false :=
  delta_move_resets_action_no_double_destroy
    ⟨.SET_PROPERTY, 7, 1, 0, 5, 42, 0, true, false⟩ rfl rfl

/-! ## PropertyValue (modelled from the spec) -/

/-- Modelled from the spec: `storage::PropertyValue`
(storage/v2/property_value.hpp is absent from the excerpt; only its unit
tests are present).  Discriminated variant over null, bool, i64, f64,
string, list, map and temporal data.  The f64 payload is modelled as a
rational number; every double the tests use (2.0, 123.5, 1.5) is
exactly representable, so comparisons agree with IEEE doubles.  The map
is the ordered `std::map<std::string, PropertyValue>`, modelled as an
association list ordered by key. -/
inductive PropertyValue where
  | nullValue
  | boolValue (b : Bool)
  | intValue (i : Int)
  | doubleValue (d : Rat)
  | stringValue (s : String)
  | listValue (l : List PropertyValue)
  | mapValue (m : List (String × PropertyValue))
  | temporalValue (ttype : Nat) (microseconds : Int)

/-- Modelled from the spec: the stable type ordering used when disparate
kinds are compared; it is the `PropertyValue::Type` enum order Null,
Bool, Int, Double, String, List, Map, TemporalData. -/
def typeOrder : PropertyValue → Nat
  | .nullValue => 0
  | .boolValue _ => 1
  | .intValue _ => 2
  | .doubleValue _ => 3
  | .stringValue _ => 4
  | .listValue _ => 5
  | .mapValue _ => 6
  | .temporalValue _ _ => 7

mutual

/-- Modelled from the spec: `operator==` on `PropertyValue` — deep
equality; numeric across int and double (2 == 2.0); false across other
disparate kinds. -/
def pvEq : PropertyValue → PropertyValue → Bool
  | .intValue i, .doubleValue d => decide ((i : Rat) = d)
  | .doubleValue d, .intValue i => decide (d = (i : Rat))
  | .nullValue, .nullValue => true
  | .boolValue a, .boolValue b => a == b
  | .intValue a, .intValue b => a == b
  | .doubleValue a, .doubleValue b => decide (a = b)
  | .stringValue a, .stringValue b => a == b
  | .listValue a, .listValue b => pvListEq a b
  | .mapValue a, .mapValue b => pvMapEq a b
  | .temporalValue t1 m1, .temporalValue t2 m2 => t1 == t2 && m1 == m2
  | _, _ => false

/-- Element-wise equality of property value lists
(`std::vector::operator==`). -/
def pvListEq : List PropertyValue → List PropertyValue → Bool
  | [], [] => true
  | a :: as, b :: bs => pvEq a b && pvListEq as bs
  | _, _ => false

/-- Entry-wise equality of property value maps
(`std::map::operator==`). -/
def pvMapEq : List (String × PropertyValue) → List (String × PropertyValue) →
    Bool
  | [], [] => true
  | (k1, v1) :: as, (k2, v2) :: bs => k1 == k2 && pvEq v1 v2 && pvMapEq as bs
  | _, _ => false

end

mutual

/-- Modelled from the spec: `operator<` on `PropertyValue` — numeric
across int and double, lexicographic across like types, and the stable
type ordering across other disparate kinds.  Because
`std::lexicographical_compare` evaluates both `a < b` and `b < a` at
each position, the recursion computes the pair
(`a < b`, `b < a`) at once, which keeps it structural. -/
def pvLtGt : PropertyValue → PropertyValue → Bool × Bool
  | .intValue i, .doubleValue d =>
    (decide ((i : Rat) < d), decide (d < (i : Rat)))
  | .doubleValue d, .intValue i =>
    (decide (d < (i : Rat)), decide ((i : Rat) < d))
  | .nullValue, .nullValue => (false, false)
  | .boolValue a, .boolValue b => (!a && b, !b && a)
  | .intValue a, .intValue b => (decide (a < b), decide (b < a))
  | .doubleValue a, .doubleValue b => (decide (a < b), decide (b < a))
  | .stringValue a, .stringValue b => (decide (a < b), decide (b < a))
  | .listValue a, .listValue b => pvListLtGt a b
  | .mapValue a, .mapValue b => pvMapLtGt a b
  | .temporalValue t1 m1, .temporalValue t2 m2 =>
    (decide (t1 < t2) || (t1 == t2 && decide (m1 < m2)),
     decide (t2 < t1) || (t2 == t1 && decide (m2 < m1)))
  | a, b =>
    (decide (typeOrder a < typeOrder b), decide (typeOrder b < typeOrder a))

/-- Lexicographic comparison of property value lists
(`std::vector::operator<`) in both directions: at each position,
`a < b` decides the first component true, `b < a` decides it false,
otherwise the comparison continues; a strict prefix is less. -/
def pvListLtGt : List PropertyValue → List PropertyValue → Bool × Bool
  | [], [] => (false, false)
  | [], _ :: _ => (true, false)
  | _ :: _, [] => (false, true)
  | a :: as, b :: bs =>
    let e := pvLtGt a b
    let r := pvListLtGt as bs
    (e.1 || (!e.2 && r.1), e.2 || (!e.1 && r.2))

/-- Lexicographic comparison of property value maps
(`std::map::operator<`) in both directions; entries are compared as
(key, value) pairs, key first. -/
def pvMapLtGt : List (String × PropertyValue) →
    List (String × PropertyValue) → Bool × Bool
  | [], [] => (false, false)
  | [], _ :: _ => (true, false)
  | _ :: _, [] => (false, true)
  | (k1, v1) :: as, (k2, v2) :: bs =>
    let e := pvLtGt v1 v2
    let r := pvMapLtGt as bs
    let p12 := decide (k1 < k2) || (!decide (k2 < k1) && e.1)
    let p21 := decide (k2 < k1) || (!decide (k1 < k2) && e.2)
    (p12 || (!p21 && r.1), p21 || (!p12 && r.2))

end

/-- `operator<` on `PropertyValue`. -/
def pvLt (a b : PropertyValue) : Bool := (pvLtGt a b).1

/-- The value sequence built by the `PropertyValue.Less` unit test:
null, true, 123, 123.5, "nandare", [true, 123], and
the map from "nandare" to false. -/
def lessTestData : List PropertyValue :=
  [.nullValue, .boolValue true, .intValue 123,
   .doubleValue (mkRat 247 2), .stringValue "nandare",
   .listValue [.boolValue true, .intValue 123],
   .mapValue [("nandare", .boolValue false)]]

/-- C8: PropertyValue(2) equals PropertyValue(2.0) and neither is less
than the other; in the seven-element test sequence every value at a
smaller index is strictly less than every value at a larger index, and
no two values of different kinds in the sequence are equal. -/
theorem propertyValue_numeric_and_type_ordering :
    pvEq (.intValue 2) (.doubleValue 2) = true ∧
    pvLt (.intValue 2) (.doubleValue 2) = false ∧
    pvLt (.doubleValue 2) (.intValue 2) = false ∧
    ((List.range 7).all fun i => (List.range 7).all fun j =>
      !decide (i < j) ||
        pvLt (lessTestData.getD i .nullValue)
          (lessTestData.getD j .nullValue)) = true ∧
    ((List.range 7).all fun i => (List.range 7).all fun j =>
      decide (typeOrder (lessTestData.getD i .nullValue) =
          typeOrder (lessTestData.getD j .nullValue)) ||
        !pvEq (lessTestData.getD i .nullValue)
          (lessTestData.getD j .nullValue)) = true := by
  refine ⟨by decide, by decide, by decide, by decide, by decide⟩

/-- `PropertyValueError::WrongType`: a typed accessor was applied to a
value of the wrong kind. -/
inductive PropertyValueError where
  | WrongType
deriving Repr, DecidableEq

/-- Modelled from the spec: `PropertyValue::ValueBool`, failing with the
wrong-type error unless the value holds a bool. -/
def ValueBool : PropertyValue → Except PropertyValueError Bool
  | .boolValue b => .ok b
  | _ => .error .WrongType

/-- Modelled from the spec: `PropertyValue::ValueInt`. -/
def ValueInt : PropertyValue → Except PropertyValueError Int
  | .intValue i => .ok i
  | _ => .error .WrongType

/-- Modelled from the spec: `PropertyValue::ValueDouble`. -/
def ValueDouble : PropertyValue → Except PropertyValueError Rat
  | .doubleValue d => .ok d
  | _ => .error .WrongType

/-- Modelled from the spec: `PropertyValue::ValueString`. -/
def ValueString : PropertyValue → Except PropertyValueError String
  | .stringValue s => .ok s
  | _ => .error .WrongType

/-- Modelled from the spec: `PropertyValue::ValueList`. -/
def ValueList : PropertyValue → Except PropertyValueError (List PropertyValue)
  | .listValue l => .ok l
  | _ => .error .WrongType

/-- Modelled from the spec: `PropertyValue::ValueMap`. -/
def ValueMap : PropertyValue →
    Except PropertyValueError (List (String × PropertyValue))
  | .mapValue m => .ok m
  | _ => .error .WrongType

/-- Modelled from the spec: `PropertyValue::ValueTemporalData`. -/
def ValueTemporalData : PropertyValue → Except PropertyValueError (Nat × Int)
  | .temporalValue t ms => .ok (t, ms)
  | _ => .error .WrongType

/-- C9: for every stored kind, the six typed accessors of the other
kinds fail with the wrong-type error, and the accessor of the stored
kind returns the stored value. -/
theorem propertyValue_typed_accessors (b : Bool) (i : Int) (q : Rat)
    (s : String) (l : List PropertyValue)
    (m : List (String × PropertyValue)) (tt : Nat) (ms : Int) :
    (ValueBool .nullValue = .error .WrongType ∧
      ValueInt .nullValue = .error .WrongType ∧
      ValueDouble .nullValue = .error .WrongType ∧
      ValueString .nullValue = .error .WrongType ∧
      ValueList .nullValue = .error .WrongType ∧
      ValueMap .nullValue = .error .WrongType) ∧
    (ValueBool (.boolValue b) = .ok b ∧
      ValueInt (.boolValue b) = .error .WrongType ∧
      ValueDouble (.boolValue b) = .error .WrongType ∧
      ValueString (.boolValue b) = .error .WrongType ∧
      ValueList (.boolValue b) = .error .WrongType ∧
      ValueMap (.boolValue b) = .error .WrongType) ∧
    (ValueBool (.intValue i) = .error .WrongType ∧
      ValueInt (.intValue i) = .ok i ∧
      ValueDouble (.intValue i) = .error .WrongType ∧
      ValueString (.intValue i) = .error .WrongType ∧
      ValueList (.intValue i) = .error .WrongType ∧
      ValueMap (.intValue i) = .error .WrongType) ∧
    (ValueBool (.doubleValue q) = .error .WrongType ∧
      ValueInt (.doubleValue q) = .error .WrongType ∧
      ValueDouble (.doubleValue q) = .ok q ∧
      ValueString (.doubleValue q) = .error .WrongType ∧
      ValueList (.doubleValue q) = .error .WrongType ∧
      ValueMap (.doubleValue q) = .error .WrongType) ∧
    (ValueBool (.stringValue s) = .error .WrongType ∧
      ValueInt (.stringValue s) = .error .WrongType ∧
      ValueDouble (.stringValue s) = .error .WrongType ∧
      ValueString (.stringValue s) = .ok s ∧
      ValueList (.stringValue s) = .error .WrongType ∧
      ValueMap (.stringValue s) = .error .WrongType) ∧
    (ValueBool (.listValue l) = .error .WrongType ∧
      ValueInt (.listValue l) = .error .WrongType ∧
      ValueDouble (.listValue l) = .error .WrongType ∧
      ValueString (.listValue l) = .error .WrongType ∧
      ValueList (.listValue l) = .ok l ∧
      ValueMap (.listValue l) = .error .WrongType) ∧
    (ValueBool (.mapValue m) = .error .WrongType ∧
      ValueInt (.mapValue m) = .error .WrongType ∧
      ValueDouble (.mapValue m) = .error .WrongType ∧
      ValueString (.mapValue m) = .error .WrongType ∧
      ValueList (.mapValue m) = .error .WrongType ∧
      ValueMap (.mapValue m) = .ok m) ∧
    (ValueBool (.temporalValue tt ms) = .error .WrongType ∧
      ValueInt (.temporalValue tt ms) = .error .WrongType ∧
      ValueDouble (.temporalValue tt ms) = .error .WrongType ∧
      ValueString (.temporalValue tt ms) = .error .WrongType ∧
      ValueList (.temporalValue tt ms) = .error .WrongType ∧
      ValueMap (.temporalValue tt ms) = .error .WrongType ∧
      ValueTemporalData (.temporalValue tt ms) = .ok (tt, ms)) :=
  ⟨⟨rfl, rfl, rfl, rfl, rfl, rfl⟩,
   ⟨rfl, rfl, rfl, rfl, rfl, rfl⟩,
   ⟨rfl, rfl, rfl, rfl, rfl, rfl⟩,
   ⟨rfl, rfl, rfl, rfl, rfl, rfl⟩,
   ⟨rfl, rfl, rfl, rfl, rfl, rfl⟩,
   ⟨rfl, rfl, rfl, rfl, rfl, rfl⟩,
   ⟨rfl, rfl, rfl, rfl, rfl, rfl⟩,
   ⟨rfl, rfl, rfl, rfl, rfl, rfl, rfl⟩⟩

/-! ## MVCC storage accessor and GC (modelled from the spec) -/

/-- Modelled from the spec: `storage::View` — OLD reads the state at the
transaction's start snapshot (including only earlier commands of the
same transaction), NEW also includes the current command's writes. -/
inductive View where
  | OLD
  | NEW
deriving Repr, DecidableEq

/-- Modelled from the spec: the mark a vertex lifecycle event carries —
either an uncommitted write of a transaction (its id and the command at
which the write happened) or a committed write with its commit
timestamp (the commit-timestamp atomic the delta points to). -/
inductive Mark where
  | txn (id : Nat) (cmd : Nat)
  | committed (ts : Nat)
deriving Repr, DecidableEq

/-- Modelled from the spec: the version information of one vertex
condensed from its delta chain — the creating event and the optional
deleting (tombstone) event. -/
structure StoredVertex where
  gid : Nat
  created : Mark
  deleted : Option Mark
deriving Repr, DecidableEq

/-- Modelled from the spec: `storage::Storage`
(storage/v2/storage.hpp/cpp are absent from the excerpt; only the GC
unit test is present) — the vertex container, the gid counter, the last
commit timestamp and the active transaction set (transaction id paired
with its start timestamp). -/
structure StorageModel where
  vertices : Nat → Option StoredVertex
  next_gid : Nat
  last_commit_timestamp : Nat
  active : List (Nat × Nat)

/-- Modelled from the spec: `Storage::Accessor` — the per-transaction
handle with its transaction id, start timestamp and command id. -/
structure AccessorModel where
  txn_id : Nat
  start_timestamp : Nat
  command_id : Nat
deriving Repr, DecidableEq

/-- Modelled from the spec: `Storage::Access` — begin a transaction:
stamp the start timestamp from the last commit timestamp, command id 0,
and insert into the active set. -/
def StorageAccess (s : StorageModel) (txn_id : Nat) :
    StorageModel × AccessorModel :=
  ({ s with active := (txn_id, s.last_commit_timestamp) :: s.active },
   ⟨txn_id, s.last_commit_timestamp, 0⟩)

/-- Modelled from the spec: `Accessor::CreateVertex` — insert a vertex
with the next gid, created by the current transaction at the current
command. -/
def CreateVertex (s : StorageModel) (acc : AccessorModel) :
    StorageModel × Nat :=
  ({ s with
      vertices := fun g =>
        if g = s.next_gid then
          some ⟨s.next_gid, .txn acc.txn_id acc.command_id, none⟩
        else s.vertices g,
      next_gid := s.next_gid + 1 },
   s.next_gid)

/-- Modelled from the spec: `Accessor::AdvanceCommand` — increment the
command id so that later operations see the effects of earlier ones. -/
def AdvanceCommand (acc : AccessorModel) : AccessorModel :=
  { acc with command_id := acc.command_id + 1 }

/-- Modelled from the spec: `Accessor::DeleteVertex` — record the
tombstone of the vertex as written by the current transaction at the
current command. -/
def DeleteVertex (s : StorageModel) (acc : AccessorModel) (gid : Nat) :
    StorageModel :=
  { s with
      vertices := fun g =>
        if g = gid then
          (s.vertices g).map
            (fun v => { v with deleted := some (.txn acc.txn_id acc.command_id) })
        else s.vertices g }

/-- Modelled from the spec: visibility of one lifecycle event to an
accessor — a committed event is visible when its commit timestamp is at
or below the accessor's start timestamp; the transaction's own events
are visible under NEW when made at or before the current command and
under OLD only when made at an earlier command. -/
def markVisible (acc : AccessorModel) (view : View) : Mark → Bool
  | .committed ts => decide (ts ≤ acc.start_timestamp)
  | .txn id cmd =>
    decide (id = acc.txn_id) &&
      (match view with
       | .NEW => decide (cmd ≤ acc.command_id)
       | .OLD => decide (cmd < acc.command_id))

/-- Modelled from the spec: `Accessor::FindVertex(gid, view)` — the
vertex is found when its creation is visible and its deletion (if any)
is not. -/
def FindVertex (s : StorageModel) (acc : AccessorModel) (gid : Nat)
    (view : View) : Option StoredVertex :=
  match s.vertices gid with
  | none => none
  | some v =>
    if markVisible acc view v.created &&
        !(v.deleted.map (markVisible acc view)).getD false then
      some v
    else none

/-- Turn this transaction's marks into committed marks at timestamp
`ts` (the commit writes `ts` into the commit-timestamp atomic every
delta of the transaction points to). -/
def commitMark (txn_id ts : Nat) : Mark → Mark
  | .txn id cmd => if id = txn_id then .committed ts else .txn id cmd
  | .committed t => .committed t

/-- Modelled from the spec: `Accessor::Commit` — allocate the next
commit timestamp, publish it on every mark of the transaction, and
remove the transaction from the active set. -/
def AccessorCommit (s : StorageModel) (acc : AccessorModel) : StorageModel :=
  let ts := s.last_commit_timestamp + 1
  { s with
      vertices := fun g =>
        (s.vertices g).map (fun v =>
          { v with
              created := commitMark acc.txn_id ts v.created,
              deleted := v.deleted.map (commitMark acc.txn_id ts) }),
      last_commit_timestamp := ts,
      active := s.active.filter (fun p => p.1 ≠ acc.txn_id) }

/-- Modelled from the spec: the GC watermark — the minimum start
timestamp of the active set, else the last commit timestamp. -/
def oldestActive (s : StorageModel) : Nat :=
  match s.active with
  | [] => s.last_commit_timestamp
  | p :: rest => rest.foldl (fun m q => min m q.2) p.2

/-- Modelled from the spec: one garbage collection run — reclaim every
vertex whose tombstone is committed at or below the watermark; no
version reachable by an active reader is freed. -/
def CollectGarbage (s : StorageModel) : StorageModel :=
  let w := oldestActive s
  { s with
      vertices := fun g =>
        match s.vertices g with
        | none => none
        | some v =>
          match v.deleted with
          | some (.committed ts) => if ts ≤ w then none else some v
          | _ => some v }

/-- The empty storage. -/
def emptyStorage : StorageModel := ⟨fun _ => none, 0, 0, []⟩

/-- Create `n` vertices in ascending gid order. -/
def createLoop : Nat → StorageModel → AccessorModel → StorageModel
  | 0, s, _ => s
  | n + 1, s, acc => (CreateVertex (createLoop n s acc) acc).1

/-- Delete every vertex with gid below `n` divisible by 5. -/
def deleteLoop : Nat → StorageModel → AccessorModel → StorageModel
  | 0, s, _ => s
  | n + 1, s, acc =>
    let s1 := deleteLoop n s acc
    if n % 5 = 0 then DeleteVertex s1 acc n else s1

/-- The storage of the StorageV2Gc.Sanity scenario after opening the
first accessor. -/
def gcStorage1 : StorageModel := (StorageAccess emptyStorage 1).1

/-- The first accessor of the scenario (command id 0). -/
def gcAccessorCmd0 : AccessorModel := (StorageAccess emptyStorage 1).2

/-- The storage after creating 1000 vertices at command 0. -/
def gcStorage2 : StorageModel := createLoop 1000 gcStorage1 gcAccessorCmd0

/-- The first accessor after AdvanceCommand (command id 1). -/
def gcAccessorCmd1 : AccessorModel := AdvanceCommand gcAccessorCmd0

/-- The storage after deleting every 5th vertex at command 1. -/
def gcStorage3 : StorageModel := deleteLoop 1000 gcStorage2 gcAccessorCmd1

/-- The storage after the periodic GC ran during the 300 ms wait. -/
def gcStorage4 : StorageModel := CollectGarbage gcStorage3

/-- The storage after the first transaction committed. -/
def gcStorage5 : StorageModel := AccessorCommit gcStorage4 gcAccessorCmd1

/-- The second accessor, opened after the commit. -/
def gcAccessor2 : AccessorModel := (StorageAccess gcStorage5 2).2

/-- The gid counter after `createLoop`. -/
theorem createLoop_next_gid (acc : AccessorModel) :
    ∀ (n : Nat) (s : StorageModel),
      (createLoop n s acc).next_gid = s.next_gid + n := by
  intro n
  induction n with
  | zero => intro s; rfl
  | succ n ih =>
    intro s
    show ((CreateVertex (createLoop n s acc) acc).1).next_gid = _
    simp [CreateVertex, ih s]
    omega

/-- `createLoop` does not touch the commit timestamp. -/
theorem createLoop_last_commit (acc : AccessorModel) :
    ∀ (n : Nat) (s : StorageModel),
      (createLoop n s acc).last_commit_timestamp = s.last_commit_timestamp := by
  intro n
  induction n with
  | zero => intro s; rfl
  | succ n ih =>
    intro s
    show ((CreateVertex (createLoop n s acc) acc).1).last_commit_timestamp = _
    simp [CreateVertex, ih s]

/-- `createLoop` does not touch the active set. -/
theorem createLoop_active (acc : AccessorModel) :
    ∀ (n : Nat) (s : StorageModel),
      (createLoop n s acc).active = s.active := by
  intro n
  induction n with
  | zero => intro s; rfl
  | succ n ih =>
    intro s
    show ((CreateVertex (createLoop n s acc) acc).1).active = _
    simp [CreateVertex, ih s]

/-- The vertex container after `createLoop`: gids from the old counter
up to the new one hold fresh vertices created at the accessor's current
command. -/
theorem createLoop_vertices (acc : AccessorModel) :
    ∀ (n : Nat) (s : StorageModel) (g : Nat),
      (createLoop n s acc).vertices g =
        if s.next_gid ≤ g ∧ g < s.next_gid + n then
          some ⟨g, .txn acc.txn_id acc.command_id, none⟩
        else s.vertices g := by
  intro n
  induction n with
  | zero =>
    intro s g
    show s.vertices g = _
    rw [if_neg (by omega)]
  | succ n ih =>
    intro s g
    show ((CreateVertex (createLoop n s acc) acc).1).vertices g = _
    simp only [CreateVertex]
    rw [createLoop_next_gid]
    by_cases hg : g = s.next_gid + n
    · subst hg
      rw [if_pos rfl, if_pos (by omega)]
    · rw [if_neg hg, ih s g]
      by_cases h2 : s.next_gid ≤ g ∧ g < s.next_gid + n
      · rw [if_pos h2, if_pos (by omega)]
      · rw [if_neg h2, if_neg (by omega)]

/-- `deleteLoop` does not touch the commit timestamp. -/
theorem deleteLoop_last_commit (acc : AccessorModel) :
    ∀ (n : Nat) (s : StorageModel),
      (deleteLoop n s acc).last_commit_timestamp = s.last_commit_timestamp := by
  intro n
  induction n with
  | zero => intro s; rfl
  | succ n ih =>
    intro s
    show (if n % 5 = 0 then DeleteVertex (deleteLoop n s acc) acc n
          else deleteLoop n s acc).last_commit_timestamp = _
    by_cases h : n % 5 = 0 <;> simp [h, DeleteVertex, ih s]

/-- `deleteLoop` does not touch the active set. -/
theorem deleteLoop_active (acc : AccessorModel) :
    ∀ (n : Nat) (s : StorageModel),
      (deleteLoop n s acc).active = s.active := by
  intro n
  induction n with
  | zero => intro s; rfl
  | succ n ih =>
    intro s
    show (if n % 5 = 0 then DeleteVertex (deleteLoop n s acc) acc n
          else deleteLoop n s acc).active = _
    by_cases h : n % 5 = 0 <;> simp [h, DeleteVertex, ih s]

/-- The vertex container after `deleteLoop`: every vertex with gid below
`n` divisible by 5 carries a tombstone written at the accessor's current
command. -/
theorem deleteLoop_vertices (acc : AccessorModel) :
    ∀ (n : Nat) (s : StorageModel) (g : Nat),
      (deleteLoop n s acc).vertices g =
        if g < n ∧ g % 5 = 0 then
          (s.vertices g).map
            (fun v => { v with deleted := some (.txn acc.txn_id acc.command_id) })
        else s.vertices g := by
  intro n
  induction n with
  | zero =>
    intro s g
    show s.vertices g = _
    rw [if_neg (by omega)]
  | succ n ih =>
    intro s g
    show (if n % 5 = 0 then DeleteVertex (deleteLoop n s acc) acc n
          else deleteLoop n s acc).vertices g = _
    by_cases h5 : n % 5 = 0
    · rw [if_pos h5]
      simp only [DeleteVertex]
      by_cases hg : g = n
      · subst hg
        rw [if_pos rfl, ih s g, if_neg (by omega), if_pos (by omega)]
      · rw [if_neg hg, ih s g]
        by_cases h2 : g < n ∧ g % 5 = 0
        · rw [if_pos h2, if_pos (by omega)]
        · rw [if_neg h2, if_neg (by omega)]
    · rw [if_neg h5, ih s g]
      by_cases h2 : g < n ∧ g % 5 = 0
      · rw [if_pos h2, if_pos (by omega)]
      · rw [if_neg h2, if_neg (by omega)]

/-- The vertex record each gid below 1000 holds before the commit:
created by transaction 1 at command 0, and deleted by transaction 1 at
command 1 exactly when the gid is divisible by 5. -/
def gcVertex (g : Nat) : StoredVertex :=
  ⟨g, .txn 1 0, if g % 5 = 0 then some (.txn 1 1) else none⟩

/-- The vertex container after the create loop. -/
theorem gcStorage2_vertices (g : Nat) :
    gcStorage2.vertices g =
      if g < 1000 then some ⟨g, .txn 1 0, none⟩ else none := by
  show (createLoop 1000 gcStorage1 gcAccessorCmd0).vertices g = _
  rw [createLoop_vertices]
  have hng : gcStorage1.next_gid = 0 := rfl
  rw [hng]
  by_cases h : g < 1000
  · rw [if_pos ⟨Nat.zero_le g, by omega⟩, if_pos h]
    rfl
  · rw [if_neg (by omega), if_neg h]
    rfl

/-- The vertex container after the delete loop. -/
theorem gcStorage3_vertices (g : Nat) :
    gcStorage3.vertices g = if g < 1000 then some (gcVertex g) else none := by
  show (deleteLoop 1000 gcStorage2 gcAccessorCmd1).vertices g = _
  rw [deleteLoop_vertices, gcStorage2_vertices g]
  by_cases h : g < 1000
  · by_cases h5 : g % 5 = 0
    · rw [if_pos ⟨h, h5⟩, if_pos h, if_pos h]
      simp [gcVertex, h5, gcAccessorCmd1, AdvanceCommand, gcAccessorCmd0,
        StorageAccess, emptyStorage]
    · rw [if_neg (by tauto), if_pos h, if_pos h]
      simp [gcVertex, h5]
  · rw [if_neg (by tauto), if_neg h, if_neg h]

/-- The active set still holds the first transaction while it runs. -/
theorem gcStorage3_active : gcStorage3.active = [(1, 0)] := by
  show (deleteLoop 1000 gcStorage2 gcAccessorCmd1).active = _
  rw [deleteLoop_active]
  show (createLoop 1000 gcStorage1 gcAccessorCmd0).active = _
  rw [createLoop_active]
  rfl

/-- The commit counter is untouched while the first transaction runs. -/
theorem gcStorage3_last_commit : gcStorage3.last_commit_timestamp = 0 := by
  show (deleteLoop 1000 gcStorage2 gcAccessorCmd1).last_commit_timestamp = _
  rw [deleteLoop_last_commit]
  show (createLoop 1000 gcStorage1 gcAccessorCmd0).last_commit_timestamp = _
  rw [createLoop_last_commit]
  rfl

/-- Projection of the GC result on one gid, stated for an abstract
storage so that rewriting never forces evaluation of a concrete
scenario state. -/
theorem CollectGarbage_vertices (s : StorageModel) (g : Nat) :
    (CollectGarbage s).vertices g =
      match s.vertices g with
      | none => none
      | some v =>
        match v.deleted with
        | some (.committed ts) => if ts ≤ oldestActive s then none else some v
        | _ => some v := rfl

/-- GC does not touch the commit timestamp. -/
theorem CollectGarbage_last_commit (s : StorageModel) :
    (CollectGarbage s).last_commit_timestamp = s.last_commit_timestamp := rfl

/-- Projection of the commit result on one gid. -/
theorem AccessorCommit_vertices (s : StorageModel) (acc : AccessorModel)
    (g : Nat) :
    (AccessorCommit s acc).vertices g =
      (s.vertices g).map (fun v =>
        { v with
            created :=
              commitMark acc.txn_id (s.last_commit_timestamp + 1) v.created,
            deleted :=
              v.deleted.map
                (commitMark acc.txn_id (s.last_commit_timestamp + 1)) }) := rfl

/-- Commit advances the commit timestamp by one. -/
theorem AccessorCommit_last_commit (s : StorageModel) (acc : AccessorModel) :
    (AccessorCommit s acc).last_commit_timestamp =
      s.last_commit_timestamp + 1 := rfl

/-- The accessor produced by `StorageAccess`. -/
theorem StorageAccess_accessor (s : StorageModel) (txn_id : Nat) :
    (StorageAccess s txn_id).2 = ⟨txn_id, s.last_commit_timestamp, 0⟩ := rfl

/-- The unfolding of `oldestActive`, stated for an abstract storage. -/
theorem oldestActive_eq (s : StorageModel) :
    oldestActive s =
      match s.active with
      | [] => s.last_commit_timestamp
      | p :: rest => rest.foldl (fun m q => min m q.2) p.2 := rfl

/-- The unfolding of `FindVertex`, stated for an abstract storage. -/
theorem FindVertex_eq (s : StorageModel) (acc : AccessorModel) (gid : Nat)
    (view : View) :
    FindVertex s acc gid view =
      match s.vertices gid with
      | none => none
      | some v =>
        if markVisible acc view v.created &&
            !(v.deleted.map (markVisible acc view)).getD false then
          some v
        else none := rfl

/-- The GC watermark while transaction 1 is active. -/
theorem gcStorage3_oldestActive : oldestActive gcStorage3 = 0 := by
  rw [oldestActive_eq, gcStorage3_active]
  rfl

/-- GC during the live transaction reclaims nothing: every tombstone is
still uncommitted. -/
theorem gcStorage4_vertices (g : Nat) :
    gcStorage4.vertices g = if g < 1000 then some (gcVertex g) else none := by
  show (CollectGarbage gcStorage3).vertices g = _
  rw [CollectGarbage_vertices, gcStorage3_vertices g]
  by_cases h : g < 1000
  · rw [if_pos h]
    by_cases h5 : g % 5 = 0 <;> simp [gcVertex, h5]
  · rw [if_neg h]

/-- The commit counter after GC. -/
theorem gcStorage4_last_commit : gcStorage4.last_commit_timestamp = 0 := by
  show (CollectGarbage gcStorage3).last_commit_timestamp = _
  rw [CollectGarbage_last_commit]
  exact gcStorage3_last_commit

/-- The vertex container after the commit: every mark of transaction 1
is committed at timestamp 1. -/
theorem gcStorage5_vertices (g : Nat) :
    gcStorage5.vertices g =
      if g < 1000 then
        some ⟨g, .committed 1, if g % 5 = 0 then some (.committed 1) else none⟩
      else none := by
  show (AccessorCommit gcStorage4 gcAccessorCmd1).vertices g = _
  rw [AccessorCommit_vertices, gcStorage4_last_commit, gcStorage4_vertices g]
  by_cases h : g < 1000
  · rw [if_pos h, if_pos h]
    by_cases h5 : g % 5 = 0 <;>
      simp [gcVertex, h5, commitMark, gcAccessorCmd1, AdvanceCommand,
        gcAccessorCmd0, StorageAccess, emptyStorage]
  · rw [if_neg h, if_neg h]
    rfl

/-- The second accessor starts at timestamp 1 with command id 0. -/
theorem gcAccessor2_def : gcAccessor2 = ⟨2, 1, 0⟩ := by
  show (StorageAccess gcStorage5 2).2 = _
  rw [StorageAccess_accessor]
  have h5 : gcStorage5.last_commit_timestamp = 1 := by
    show (AccessorCommit gcStorage4 gcAccessorCmd1).last_commit_timestamp = 1
    rw [AccessorCommit_last_commit, gcStorage4_last_commit]
  rw [h5]

/-- After the commit, the second accessor finds a vertex exactly for the
gids not divisible by 5. -/
theorem gcAccessor2_findVertex (g : Nat) (hg : g < 1000) :
    (FindVertex gcStorage5 gcAccessor2 g .OLD).isSome =
      decide (¬ g % 5 = 0) := by
  rw [FindVertex_eq, gcStorage5_vertices g, if_pos hg, gcAccessor2_def]
  by_cases h5 : g % 5 = 0 <;> simp [h5, markVisible]

set_option maxRecDepth 8000 in
/-- C3: in the transaction that created 1000 vertices at command 0 and
deleted every 5th at command 1, after GC ran, FindVertex still returns a
vertex under View::OLD for every gid below 1000 while under View::NEW it
returns one exactly for the gids not divisible by 5; after Commit, a
second accessor finds exactly the 800 surviving vertices. -/
theorem storage_gc_sanity (i : Nat) (hi : i < 1000) :
    (FindVertex gcStorage4 gcAccessorCmd1 i .OLD).isSome = true ∧
    (FindVertex gcStorage4 gcAccessorCmd1 i .NEW).isSome =
      decide (¬ i % 5 = 0) ∧
    (FindVertex gcStorage5 gcAccessor2 i .OLD).isSome =
      decide (¬ i % 5 = 0) ∧
    (∀ j, 1000 ≤ j → FindVertex gcStorage5 gcAccessor2 j .OLD = none) ∧
    (List.range 1000).countP
      (fun g => (FindVertex gcStorage5 gcAccessor2 g .OLD).isSome) = 800 := by
  have hacc1 : gcAccessorCmd1 = ⟨1, 0, 1⟩ := rfl
  refine ⟨?_, ?_, gcAccessor2_findVertex i hi, ?_, ?_⟩
  · rw [FindVertex_eq, gcStorage4_vertices i, if_pos hi, hacc1]
    by_cases h5 : i % 5 = 0 <;> simp [gcVertex, h5, markVisible]
  · rw [FindVertex_eq, gcStorage4_vertices i, if_pos hi, hacc1]
    by_cases h5 : i % 5 = 0 <;> simp [gcVertex, h5, markVisible]
  · intro j hj
    rw [FindVertex_eq, gcStorage5_vertices j, if_neg (by omega)]
  · have hcong : (List.range 1000).countP
        (fun g => (FindVertex gcStorage5 gcAccessor2 g .OLD).isSome) =
        (List.range 1000).countP (fun g => decide (¬ g % 5 = 0)) := by
      apply List.countP_congr
      intro x hx
      rw [gcAccessor2_findVertex x (List.mem_range.mp hx)]
    rw [hcong]
    decide

/-- Witness for C3 at the surviving gid 3. -/
theorem storage_gc_sanity_witness :
    (FindVertex gcStorage4 gcAccessorCmd1 3 .OLD).isSome = true ∧
    (FindVertex gcStorage4 gcAccessorCmd1 3 .NEW).isSome =
      decide (¬ 3 % 5 = 0) ∧
    (FindVertex gcStorage5 gcAccessor2 3 .OLD).isSome =
      decide (¬ 3 % 5 = 0) ∧
    (∀ j, 1000 ≤ j → FindVertex gcStorage5 gcAccessor2 j .OLD = none) ∧
    (List.range 1000).countP
      (fun g => (FindVertex gcStorage5 gcAccessor2 g .OLD).isSome) = 800 :=
  storage_gc_sanity 3 (by omega)

/-! ## Characterizing GetRecoverySteps (C1, C2) -/

/-- The WAL file at forward index `i` (a default element on
out-of-range reads, used only under in-range hypotheses). -/
def walAt (ws : List WalDurabilityInfo) (i : Nat) : WalDurabilityInfo :=
  (ws[i]?).getD default

/-- In-range reads of `walAt` agree with the indexing the embedding
uses. -/
theorem walAt_getElem (ws : List WalDurabilityInfo) (i : Nat)
    (h : i < ws.length) : ws[i]? = some (walAt ws i) := by
  simp [walAt, List.getElem?_eq_getElem h]

/-- In-range `walAt` reads are members of the list. -/
theorem walAt_mem (ws : List WalDurabilityInfo) (i : Nat)
    (h : i < ws.length) : walAt ws i ∈ ws := by
  have := List.getElem_mem h
  simp only [walAt, List.getElem?_eq_getElem h, Option.getD_some]
  exact this

/-- `walAt` on a cons at a successor index. -/
theorem walAt_cons_succ (w : WalDurabilityInfo) (rest : List WalDurabilityInfo)
    (i : Nat) : walAt (w :: rest) (i + 1) = walAt rest i := by
  simp [walAt]

/-- `walAt` on a cons at index zero. -/
theorem walAt_cons_zero (w : WalDurabilityInfo)
    (rest : List WalDurabilityInfo) : walAt (w :: rest) 0 = w := by
  simp [walAt]

/-- When consecutive WAL files have disjoint ordered timestamp ranges,
an earlier file ends no later than a later file begins. -/
theorem wal_to_le_from (ws : List WalDurabilityInfo)
    (hft : ∀ w ∈ ws, w.from_timestamp ≤ w.to_timestamp)
    (hadj : ∀ i, i + 1 < ws.length →
      (walAt ws i).to_timestamp ≤ (walAt ws (i + 1)).from_timestamp) :
    ∀ i j, i < j → j < ws.length →
      (walAt ws i).to_timestamp ≤ (walAt ws j).from_timestamp := by
  intro i j
  induction j with
  | zero => intro h _; exact absurd h (Nat.not_lt_zero i)
  | succ j ih =>
    intro hij hjlen
    by_cases he : i = j
    · subst he
      exact hadj i hjlen
    · have h1 : (walAt ws i).to_timestamp ≤ (walAt ws j).from_timestamp :=
        ih (by omega) (by omega)
      have h2 : (walAt ws j).from_timestamp ≤ (walAt ws j).to_timestamp :=
        hft _ (walAt_mem ws j (by omega))
      have h3 : (walAt ws j).to_timestamp ≤ (walAt ws (j + 1)).from_timestamp :=
        hadj j hjlen
      omega

/-- A filter that fails below index `k` and holds from `k` on equals the
drop at `k`. -/
theorem filter_eq_drop (p : WalDurabilityInfo → Bool) :
    ∀ (ws : List WalDurabilityInfo) (k : Nat), k ≤ ws.length →
      (∀ i, i < k → p (walAt ws i) = false) →
      (∀ i, k ≤ i → i < ws.length → p (walAt ws i) = true) →
      ws.filter p = ws.drop k := by
  intro ws
  induction ws with
  | nil => intro k _ _ _; simp
  | cons w rest ih =>
    intro k hk h1 h2
    cases k with
    | zero =>
      rw [List.drop_zero, List.filter_eq_self.mpr]
      intro a ha
      obtain ⟨n, hn, rfl⟩ := List.getElem_of_mem ha
      have := h2 n (Nat.zero_le n) hn
      rwa [show walAt (w :: rest) n = (w :: rest).get ⟨n, hn⟩ by
        simp [walAt, List.getElem?_eq_getElem hn]] at this
    | succ k2 =>
      have hw : p w = false := by
        have := h1 0 (by omega)
        rwa [walAt_cons_zero] at this
      rw [List.filter_cons_of_neg (by simp [hw]), List.drop_succ_cons]
      refine ih k2 (by simpa using hk) ?_ ?_
      · intro i hi
        have := h1 (i + 1) (by omega)
        rwa [walAt_cons_succ] at this
      · intro i hik hil
        have := h2 (i + 1) (by omega) (by simpa using hil)
        rwa [walAt_cons_succ] at this

/-- A filter that holds below index `k` and fails from `k` on equals the
take at `k`. -/
theorem filter_eq_take (p : WalDurabilityInfo → Bool) :
    ∀ (ws : List WalDurabilityInfo) (k : Nat), k ≤ ws.length →
      (∀ i, i < k → p (walAt ws i) = true) →
      (∀ i, k ≤ i → i < ws.length → p (walAt ws i) = false) →
      ws.filter p = ws.take k := by
  intro ws
  induction ws with
  | nil => intro k _ _ _; simp
  | cons w rest ih =>
    intro k hk h1 h2
    cases k with
    | zero =>
      rw [List.take_zero, List.filter_eq_nil_iff.mpr]
      intro a ha
      obtain ⟨n, hn, rfl⟩ := List.getElem_of_mem ha
      have := h2 n (Nat.zero_le n) hn
      rw [show walAt (w :: rest) n = (w :: rest).get ⟨n, hn⟩ by
        simp [walAt, List.getElem?_eq_getElem hn]] at this
      simp only [List.get_eq_getElem] at this
      simp [this]
    | succ k2 =>
      have hw : p w = true := by
        have := h1 0 (by omega)
        rwa [walAt_cons_zero] at this
      rw [List.filter_cons_of_pos hw, List.take_succ_cons]
      congr 1
      refine ih k2 (by simpa using hk) ?_ ?_
      · intro i hi
        have := h1 (i + 1) (by omega)
        rwa [walAt_cons_succ] at this
      · intro i hik hil
        have := h2 (i + 1) (by omega) (by simpa using hil)
        rwa [walAt_cons_succ] at this

/-- When every finalized WAL begins after the replica commit and none
has sequence number zero, the reverse scan never finds a chain. -/
theorem findWalChainStart_none (rc : Nat) (ws : List WalDurabilityInfo)
    (hmiss : ∀ w ∈ ws, rc < w.from_timestamp)
    (hseq0 : ∀ w ∈ ws, w.seq_num ≠ 0) :
    ∀ i prev, findWalChainStart rc ws i prev = none := by
  intro i
  induction i with
  | zero =>
    intro prev
    rw [findWalChainStart.eq_1]
    cases h0 : ws[0]? with
    | none => simp only
    | some w =>
      have hw : w ∈ ws := List.getElem?_mem h0
      have h1 := hmiss w hw
      have h2 := hseq0 w hw
      simp only
      by_cases hg : w.seq_num + 1 < prev ∨ prev < w.seq_num
      · rw [if_pos hg]
      · rw [if_neg hg, if_neg (by omega)]
  | succ i ih =>
    intro prev
    rw [findWalChainStart.eq_1]
    cases h0 : ws[i + 1]? with
    | none => simp only
    | some w =>
      have hw : w ∈ ws := List.getElem?_mem h0
      have h1 := hmiss w hw
      have h2 := hseq0 w hw
      simp only
      by_cases hg : w.seq_num + 1 < prev ∨ prev < w.seq_num
      · rw [if_pos hg]
      · rw [if_neg hg, if_neg (by omega)]
        exact ih w.seq_num

/-- The reverse scan, started anywhere at or above the greatest index
`j` whose WAL begins at or before the replica commit, stops at `j` and
returns `j`, or `j + 1` when the replica already holds every commit of
that file.  `prev` carries the sequence number of the previously
examined (or, on the first call, the same) file. -/
theorem findWalChainStart_spec (rc : Nat) (ws : List WalDurabilityInfo)
    (hseq : ∀ i, i + 1 < ws.length →
      (walAt ws (i + 1)).seq_num = (walAt ws i).seq_num + 1)
    (j : Nat) (hj : j < ws.length)
    (hPj : (walAt ws j).from_timestamp ≤ rc)
    (hjmax : ∀ l, j < l → l < ws.length →
      rc < (walAt ws l).from_timestamp) :
    ∀ i, j ≤ i → i < ws.length → ∀ prev,
      (prev = (walAt ws i).seq_num ∨ prev = (walAt ws i).seq_num + 1) →
      findWalChainStart rc ws i prev =
        some (if rc ≥ (walAt ws j).to_timestamp then j + 1 else j) := by
  intro i
  induction i using Nat.strong_induction_on with
  | _ i ih =>
    intro hji hilen prev hprev
    have hgap : ¬((walAt ws i).seq_num + 1 < prev ∨
        prev < (walAt ws i).seq_num) := by
      rcases hprev with rfl | rfl <;> omega
    rcases i with - | i2
    · have hj0 : j = 0 := by omega
      subst hj0
      rw [findWalChainStart.eq_1]
      simp only [walAt_getElem ws 0 hilen]
      rw [if_neg hgap, if_pos (Or.inl hPj)]
    · rw [findWalChainStart.eq_1]
      simp only [walAt_getElem ws (i2 + 1) hilen]
      rw [if_neg hgap]
      by_cases hij : i2 + 1 = j
      · subst hij
        rw [if_pos (Or.inl hPj)]
      · have hgt : j < i2 + 1 := by omega
        have hfrom := hjmax (i2 + 1) hgt hilen
        have hseqi := hseq i2 hilen
        rw [if_neg (by omega)]
        exact ih i2 (by omega) (by omega) (by omega) _ (Or.inr hseqi)

/-- C2 (amended): when the finalized WAL files form one sequential
chain of disjoint ordered timestamp ranges whose first file begins at
or before the replica's commit timestamp, and the replica is strictly
behind the newest file's to_timestamp, GetRecoverySteps returns exactly
one RecoveryWals step (no snapshot) holding precisely the WAL files
that contain a commit the replica lacks — those with
to_timestamp > replica_commit. -/
theorem getRecoverySteps_wal_chain (rc : Nat) (ws : List WalDurabilityInfo)
    (snap : Option SnapshotDurabilityInfo) (hne : ws ≠ [])
    (hseq : ∀ i, i + 1 < ws.length →
      (walAt ws (i + 1)).seq_num = (walAt ws i).seq_num + 1)
    (hft : ∀ w ∈ ws, w.from_timestamp ≤ w.to_timestamp)
    (hadj : ∀ i, i + 1 < ws.length →
      (walAt ws i).to_timestamp ≤ (walAt ws (i + 1)).from_timestamp)
    (hcov : (walAt ws 0).from_timestamp ≤ rc)
    (hbehind : rc < (walAt ws (ws.length - 1)).to_timestamp) :
    GetRecoverySteps rc none ws snap =
      some [.RecoveryWals
        ((ws.filter (fun w => rc < w.to_timestamp)).map (·.path))] := by
  have hn : 0 < ws.length := List.length_pos.mpr hne
  have hlast : ws.getLast? = some (walAt ws (ws.length - 1)) := by
    rw [List.getLast?_eq_getElem?]
    exact walAt_getElem ws (ws.length - 1) (by omega)
  obtain ⟨j, hjle, hPj, hjmax⟩ :
      ∃ j, j ≤ ws.length - 1 ∧ (walAt ws j).from_timestamp ≤ rc ∧
        ∀ l, j < l → l < ws.length → rc < (walAt ws l).from_timestamp := by
    refine ⟨Nat.findGreatest
        (fun i => (walAt ws i).from_timestamp ≤ rc) (ws.length - 1),
      Nat.findGreatest_le _,
      @Nat.findGreatest_spec 0
        (fun i => (walAt ws i).from_timestamp ≤ rc) _ (ws.length - 1)
        (Nat.zero_le _) hcov, ?_⟩
    intro l hl hllen
    have hnp := Nat.findGreatest_is_greatest hl (by omega)
    omega
  have hscan := findWalChainStart_spec rc ws hseq j (by omega) hPj hjmax
    (ws.length - 1) (by omega) (by omega)
    ((walAt ws (ws.length - 1)).seq_num) (Or.inl rfl)
  simp only [GetRecoverySteps, hlast]
  rw [if_neg (by omega)]
  rw [hscan]
  by_cases hto : rc ≥ (walAt ws j).to_timestamp
  · have hfd : ws.filter (fun w => rc < w.to_timestamp) = ws.drop (j + 1) := by
      apply filter_eq_drop _ ws (j + 1) (by omega)
      · intro i hi
        by_cases hij : i = j
        · subst hij
          simp only [decide_eq_false_iff_not]
          omega
        · have h1 : (walAt ws i).to_timestamp ≤ (walAt ws j).from_timestamp :=
            wal_to_le_from ws hft hadj i j (by omega) (by omega)
          simp only [decide_eq_false_iff_not]
          omega
      · intro i hik hil
        have h1 := hjmax i (by omega) hil
        have h2 := hft _ (walAt_mem ws i hil)
        simp only [decide_eq_true_eq]
        omega
    rw [if_pos hto, hfd]
  · have hfd : ws.filter (fun w => rc < w.to_timestamp) = ws.drop j := by
      apply filter_eq_drop _ ws j (by omega)
      · intro i hi
        have h1 : (walAt ws i).to_timestamp ≤ (walAt ws j).from_timestamp :=
          wal_to_le_from ws hft hadj i j (by omega) (by omega)
        simp only [decide_eq_false_iff_not]
        omega
      · intro i hik hil
        by_cases hij : i = j
        · subst hij
          simp only [decide_eq_true_eq]
          omega
        · have h1 := hjmax i (by omega) hil
          have h2 := hft _ (walAt_mem ws i hil)
          simp only [decide_eq_true_eq]
          omega
    rw [if_neg hto, hfd]

/-- C2 counterexample: with WAL files 4..7 covering timestamps
(i, i+1] and the replica at timestamp 8 (at the newest file's
to_timestamp), the chain's from_timestamp (4) covers the replica
commit, yet GetRecoverySteps returns a RecoveryFinalSnapshot step — a
snapshot step and no WAL-file step, which the claim rules out. -/
theorem getRecoverySteps_wal_chain_counterexample :
    (walAt [⟨4, 4, 5, "wal4"⟩, ⟨5, 5, 6, "wal5"⟩, ⟨6, 6, 7, "wal6"⟩,
        ⟨7, 7, 8, "wal7"⟩] 0).from_timestamp ≤ 8 ∧
    GetRecoverySteps 8 none
      [⟨4, 4, 5, "wal4"⟩, ⟨5, 5, 6, "wal5"⟩, ⟨6, 6, 7, "wal6"⟩,
       ⟨7, 7, 8, "wal7"⟩] (some ⟨"snap", 2⟩) =
      some [.RecoveryFinalSnapshot 2] := by
  exact ⟨by decide, by decide⟩

/-- Witness for C2 (amended) at the spec's example: WAL files 4..7,
replica at timestamp 5, WALs 5, 6 and 7 are sent. -/
theorem getRecoverySteps_wal_chain_witness :
    GetRecoverySteps 5 none
      [⟨4, 4, 5, "wal4"⟩, ⟨5, 5, 6, "wal5"⟩, ⟨6, 6, 7, "wal6"⟩,
       ⟨7, 7, 8, "wal7"⟩] (some ⟨"snap", 2⟩) =
      some [.RecoveryWals ["wal5", "wal6", "wal7"]] := by
  have h := getRecoverySteps_wal_chain 5
    [⟨4, 4, 5, "wal4"⟩, ⟨5, 5, 6, "wal5"⟩, ⟨6, 6, 7, "wal6"⟩,
     ⟨7, 7, 8, "wal7"⟩] (some ⟨"snap", 2⟩) (by decide)
    (by intro i hi
        simp at hi
        have h3 : i < 3 := by omega
        interval_cases i <;> decide)
    (by decide)
    (by intro i hi
        simp at hi
        have h3 : i < 3 := by omega
        interval_cases i <;> decide)
    (by decide) (by decide)
  rw [h]
  decide

/-- The WAL files the amended claim C1 predicts after the latest
snapshot (claim-side definition, following the spec's words, to be
compared with the embedded GetRecoverySteps): every finalized WAL whose
`to_timestamp` exceeds the snapshot's `start_timestamp`; when the
oldest of those begins after the snapshot start, additionally the
newest WAL ending at or before the snapshot start; and when no WAL
qualifies at all, the newest WAL alone. -/
def snapshotRecoveryWals (start : Nat) (ws : List WalDurabilityInfo) :
    List WalDurabilityInfo :=
  if ws.filter (fun w => start < w.to_timestamp) = [] then [ws.getLastD default]
  else if ((ws.filter (fun w => start < w.to_timestamp)).headD
      default).from_timestamp ≤ start then
    ws.filter (fun w => start < w.to_timestamp)
  else
    (ws.filter (fun w => w.to_timestamp ≤ start)).getLastD default ::
      ws.filter (fun w => start < w.to_timestamp)

/-- The snapshot branch of GetRecoverySteps picks exactly the WAL files
of the claim-side `snapshotRecoveryWals`, provided the WAL files have
disjoint ordered ranges and the oldest one begins at or before the
snapshot start. -/
theorem walsAfterSnapshot_eq (start : Nat) (ws : List WalDurabilityInfo)
    (hne : ws ≠ [])
    (hft : ∀ w ∈ ws, w.from_timestamp ≤ w.to_timestamp)
    (hadj : ∀ i, i + 1 < ws.length →
      (walAt ws i).to_timestamp ≤ (walAt ws (i + 1)).from_timestamp)
    (hfirst : (walAt ws 0).from_timestamp ≤ start) :
    walsAfterSnapshot start ws = some (snapshotRecoveryWals start ws) := by
  have hn : 0 < ws.length := List.length_pos.mpr hne
  have hlast : ws.getLast? = some (walAt ws (ws.length - 1)) := by
    rw [List.getLast?_eq_getElem?]
    exact walAt_getElem ws (ws.length - 1) (by omega)
  cases hfi : ws.findIdx? (fun w => start < w.to_timestamp) with
  | none =>
    have hall := List.findIdx?_eq_none_iff.mp hfi
    have hF : ws.filter (fun w => start < w.to_timestamp) = [] :=
      List.filter_eq_nil_iff.mpr (by
        intro a ha
        simpa using hall a ha)
    simp only [walsAfterSnapshot, snapshotRecoveryWals, hfi, hF, hlast]
    simp [List.getLastD_eq_getLast?, hlast]
  | some m =>
    obtain ⟨hmlt, hpm, hmin⟩ := List.findIdx?_eq_some_iff_getElem.mp hfi
    have hwam : walAt ws m = ws[m] := by
      simp [walAt, List.getElem?_eq_getElem hmlt]
    have hto_m : start < (walAt ws m).to_timestamp := by
      rw [hwam]
      simpa using hpm
    have hminlt : ∀ i, i < m → (walAt ws i).to_timestamp ≤ start := by
      intro i hi
      have hthis := hmin i hi
      simp only [decide_eq_true_eq] at hthis
      have hgw : walAt ws i = ws.get ⟨i, Nat.lt_trans hi hmlt⟩ := by
        simp [walAt, List.getElem?_eq_getElem (Nat.lt_trans hi hmlt)]
      rw [hgw, List.get_eq_getElem]
      exact Nat.not_lt.mp hthis
    have hup : ∀ i, m ≤ i → i < ws.length →
        start < (walAt ws i).to_timestamp := by
      intro i him hil
      by_cases he : i = m
      · subst he; exact hto_m
      · have h1 : (walAt ws m).to_timestamp ≤ (walAt ws i).from_timestamp :=
          wal_to_le_from ws hft hadj m i (by omega) hil
        have h2 := hft _ (walAt_mem ws i hil)
        omega
    have hF : ws.filter (fun w => start < w.to_timestamp) = ws.drop m := by
      apply filter_eq_drop _ ws m (by omega)
      · intro i hi
        have := hminlt i hi
        simp only [decide_eq_false_iff_not]
        omega
      · intro i him hil
        have := hup i him hil
        simp only [decide_eq_true_eq]
        omega
    have hFne : ws.drop m ≠ [] := by
      intro h
      rw [List.drop_eq_nil_iff] at h
      omega
    have hdropc : ws.drop m = walAt ws m :: ws.drop (m + 1) := by
      rw [List.drop_eq_getElem_cons hmlt, hwam]
    have hhead : (ws.drop m).headD default = walAt ws m := by
      rw [hdropc]
      rfl
    simp only [walsAfterSnapshot, snapshotRecoveryWals, hfi,
      walAt_getElem ws m hmlt, hF, hhead]
    rw [if_neg hFne]
    by_cases hfrom : start < (walAt ws m).from_timestamp
    · rw [if_pos hfrom, if_neg (by omega)]
      have hm0 : m ≠ 0 := by
        intro h
        rw [h] at hfrom
        omega
      obtain ⟨m2, rfl⟩ : ∃ m2, m = m2 + 1 := ⟨m - 1, by omega⟩
      have hT : ws.filter (fun w => w.to_timestamp ≤ start) =
          ws.take (m2 + 1) := by
        apply filter_eq_take _ ws (m2 + 1) (by omega)
        · intro i hi
          have := hminlt i hi
          simp only [decide_eq_true_eq]
          omega
        · intro i him hil
          have := hup i him hil
          simp only [decide_eq_false_iff_not]
          omega
      have hlastB : (ws.take (m2 + 1)).getLastD default = walAt ws m2 := by
        rw [List.take_succ, walAt_getElem ws m2 (by omega)]
        simp [List.getLastD_eq_getLast?, List.getLast?_concat]
      have hdropc2 : ws.drop m2 = walAt ws m2 :: ws.drop (m2 + 1) := by
        rw [List.drop_eq_getElem_cons (show m2 < ws.length by omega)]
        congr 1
        simp [walAt, List.getElem?_eq_getElem (show m2 < ws.length by omega)]
      show some (ws.drop m2) =
        some ((ws.filter (fun w => w.to_timestamp ≤ start)).getLastD default ::
          ws.drop (m2 + 1))
      rw [hT, hlastB, hdropc2]
    · rw [if_neg hfrom, if_pos (by omega)]

/-- C1 (amended): when no sequential chain of finalized WAL files can
cover the replica's commit timestamp (every finalized WAL begins after
it and none has sequence number zero), and the finalized WAL files have
disjoint ordered ranges with the oldest beginning at or before the
latest snapshot's start_timestamp, GetRecoverySteps returns the latest
snapshot as the first step followed by one RecoveryWals step holding
the files of `snapshotRecoveryWals`: exactly the finalized WALs whose
to_timestamp exceeds the snapshot's start_timestamp, preceded by the
newest earlier WAL when the oldest qualifying WAL begins after the
snapshot start, or the newest WAL alone when none qualifies. -/
theorem getRecoverySteps_snapshot_path (rc : Nat)
    (ws : List WalDurabilityInfo) (sn : SnapshotDurabilityInfo)
    (hne : ws ≠ [])
    (hmiss : ∀ w ∈ ws, rc < w.from_timestamp)
    (hseq0 : ∀ w ∈ ws, w.seq_num ≠ 0)
    (hft : ∀ w ∈ ws, w.from_timestamp ≤ w.to_timestamp)
    (hadj : ∀ i, i + 1 < ws.length →
      (walAt ws i).to_timestamp ≤ (walAt ws (i + 1)).from_timestamp)
    (hfirst : (walAt ws 0).from_timestamp ≤ sn.start_timestamp) :
    GetRecoverySteps rc none ws (some sn) =
      some [.RecoverySnapshot sn.path,
        .RecoveryWals
          ((snapshotRecoveryWals sn.start_timestamp ws).map (·.path))] := by
  have hn : 0 < ws.length := List.length_pos.mpr hne
  have hlast : ws.getLast? = some (walAt ws (ws.length - 1)) := by
    rw [List.getLast?_eq_getElem?]
    exact walAt_getElem ws (ws.length - 1) (by omega)
  have hbehind : rc < (walAt ws (ws.length - 1)).to_timestamp := by
    have h1 := hmiss _ (walAt_mem ws (ws.length - 1) (by omega))
    have h2 := hft _ (walAt_mem ws (ws.length - 1) (by omega))
    omega
  have hscan := findWalChainStart_none rc ws hmiss hseq0 (ws.length - 1)
    ((walAt ws (ws.length - 1)).seq_num)
  have hwa := walsAfterSnapshot_eq sn.start_timestamp ws hne hft hadj hfirst
  simp only [GetRecoverySteps, hlast]
  rw [if_neg (by omega), hscan, hwa]

/-- C1 counterexample: replica at timestamp 0, snapshot at timestamp 5,
finalized WALs 6 (timestamps 2..4) and 7 (timestamps 6..7).  No
sequential WAL chain covers the replica (both files begin after
timestamp 0), yet GetRecoverySteps sends the snapshot followed by both
WAL files, while only WAL 7 has to_timestamp greater than the
snapshot's start_timestamp — the set the claim announces. -/
theorem getRecoverySteps_snapshot_path_counterexample :
    (∀ w ∈ [(⟨6, 2, 4, "wal6"⟩ : WalDurabilityInfo), ⟨7, 6, 7, "wal7"⟩],
      0 < w.from_timestamp) ∧
    GetRecoverySteps 0 none [⟨6, 2, 4, "wal6"⟩, ⟨7, 6, 7, "wal7"⟩]
      (some ⟨"snap", 5⟩) =
      some [.RecoverySnapshot "snap", .RecoveryWals ["wal6", "wal7"]] ∧
    (([(⟨6, 2, 4, "wal6"⟩ : WalDurabilityInfo), ⟨7, 6, 7, "wal7"⟩].filter
        (fun w => 5 < w.to_timestamp)).map (·.path)) = ["wal7"] := by
  exact ⟨by decide, by decide, by decide⟩

/-- Witness for C1 (amended) at the spec's example: replica at
timestamp 0, snapshot at timestamp 5, WALs 6 (covering the snapshot
start) and 7; the snapshot is sent first, then WALs 6 and 7. -/
theorem getRecoverySteps_snapshot_path_witness :
    GetRecoverySteps 0 none
      [⟨6, 4, 6, "wal6"⟩, ⟨7, 7, 7, "wal7"⟩] (some ⟨"snap", 5⟩) =
      some [.RecoverySnapshot "snap", .RecoveryWals ["wal6", "wal7"]] := by
  have h := getRecoverySteps_snapshot_path 0
    [⟨6, 4, 6, "wal6"⟩, ⟨7, 7, 7, "wal7"⟩] ⟨"snap", 5⟩
    (by decide) (by decide) (by decide) (by decide)
    (by intro i hi
        simp at hi
        have h1 : i < 1 := by omega
        interval_cases i
        decide)
    (by decide)
  rw [h]
  decide
